import Mathlib

/-!
Verification of the thermoprint LX-D02 printer driver (rusq/thermoprint).

This file gives a shallow embedding of the driver's core algorithms —
the colour/threshold pipeline (`bitmap/image.go`, `bitmap/composer.go`),
the rasteriser (`raster.go`, instantiated at the `LXD02Rasteriser`
parameters: width 384, 2 lines per packet, prefix `55 m n`,
terminator `00`), image scaling (`bitmap` package, `ResizeToFit`),
the session finite state machine (`printers` package, `transition`),
the link-layer request/response correlator (`sendAndWait`) and the
configuration options — and proves or refutes the specified properties.

Go machine integers are modelled as `Nat` with explicit masking where
the source truncates; Go slices as `List Nat`; fallible functions
return `Except`/`Option`.  Concurrency is modelled by making the
effects of a transition explicit (an effect list) and by passing the
ordered list of inbound frames that arrive before a timeout.
-/

namespace Thermoprint

/-! ### Colour model (Go `image/color` as consumed by the driver)

`ColorToGray` in `bitmap/image.go` type-switches on `color.Gray` and
otherwise uses `RGBA()` (16-bit premultiplied channels).  The palette
colours `color.Black` / `color.White` that `DitherThresholdFn` writes
are `color.Gray16` values, whose `RGBA()` returns the 16-bit luma on
all three channels.  We model exactly the colour kinds the driver
produces or reads. -/

/-- A Go `color.Color` as observed by the driver: an 8-bit gray
(`color.Gray`), a 16-bit gray (`color.Gray16`, used for the palette
colours black and white), or a generic colour given by its 16-bit
`RGBA()` channels. -/
inductive GoColor where
  | gray (y : Nat)
  | gray16 (y : Nat)
  | rgba (r g b : Nat)
deriving DecidableEq, Repr

/-- The 16-bit `RGBA()` channels of a colour: `color.Gray.RGBA` returns
`y * 0x101` on each channel, `color.Gray16.RGBA` returns `y`. -/
def GoColor.channels : GoColor → Nat × Nat × Nat
  | .gray y => (y * 0x101, y * 0x101, y * 0x101)
  | .gray16 y => (y, y, y)
  | .rgba r g b => (r, g, b)

/-- `ColorToGray` from `bitmap/image.go`: a `color.Gray` returns its
`Y` directly; otherwise `gray = (299 r + 587 g + 114 b) / 1000` on the
16-bit channels, truncated to `uint8` by `gray >> 8`. -/
def ColorToGray : GoColor → Nat
  | .gray y => y % 256
  | c =>
    let (r, g, b) := c.channels
    (((299 * r + 587 * g + 114 * b) / 1000) >>> 8) % 256

/-- An image with zero-based bounds: a width, a height and a pixel
function (the driver only ever builds and reads zero-origin images). -/
structure GoImage where
  width : Nat
  height : Nat
  px : Nat → Nat → GoColor

/-- The default threshold for dark pixels (`bitmap.DefaultThreshold`). -/
def DefaultThreshold : Nat := 128

/-- `PixelBit` from `bitmap/image.go`: threshold 0 falls back to the
default 128; rows past the image height and columns past the image
width read as off; otherwise the pixel is on when its grey value is
strictly below the threshold. -/
def PixelBit (img : GoImage) (x y : Nat) (threshold : Nat) : Bool :=
  let t := if threshold = 0 then DefaultThreshold else threshold
  if y ≥ img.height then false
  else if x ≥ img.width then false
  else decide (ColorToGray (img.px x y) < t)

/-! ### Threshold conversion (`DitherThresholdFn`, `bitmap/composer.go`)

The returned function writes palette index 0 (`color.Black`, a
`Gray16` of luma 0) where `PixelBit` holds and palette index 1
(`color.White`, a `Gray16` of luma 0xffff) elsewhere, over the same
bounds as the input. -/

/-- The image produced by `DitherThresholdFn(threshold)` applied to
`img`: black where `PixelBit` holds, white elsewhere. -/
def DitherThreshold (threshold : Nat) (img : GoImage) : GoImage where
  width := img.width
  height := img.height
  px := fun x y =>
    if PixelBit img x y threshold then .gray16 0 else .gray16 0xffff

/-! ### Resize-to-fit (`ResizeToFit`, `bitmap` package)

When the input is no wider than the target, the input is copied to the
origin of a white canvas of the target width at the native height — no
scaling happens.  Otherwise the target height is
`Dy * targetWidth / Dx` with Go's truncating integer division, and the
pixels are produced by the external `draw.CatmullRom` scaler, which we
abstract as a pixel function supplied by the caller. -/

/-- The white colour `image.White` fills the canvas with (an opaque
RGBA with all 8-bit channels 255, hence 16-bit channels 0xffff). -/
def whiteColor : GoColor := .rgba 0xffff 0xffff 0xffff

/-- `ResizeToFit` from the `bitmap` package.  `scaled` stands for the
pixels computed by the external `draw.CatmullRom.Scale` call in the
downscaling branch; the driver's own code determines only the
dimensions of that branch. -/
def ResizeToFit (scaled : Nat → Nat → GoColor) (img : GoImage)
    (targetWidth : Nat) : GoImage :=
  if img.width ≤ targetWidth then
    { width := targetWidth
      height := img.height
      px := fun x y =>
        if x < img.width ∧ y < img.height then img.px x y else whiteColor }
  else
    { width := targetWidth
      height := img.height * targetWidth / img.width
      px := scaled }

/-! ### Configuration options (`WithPrintInterval`, `part_020`)

Durations are modelled in nanoseconds (Go `time.Duration` is an `int64`
nanosecond count), as `Int` since a caller may pass a negative
duration. -/

/-- `DefaultPrintDelay = 7 * time.Millisecond` in nanoseconds. -/
def DefaultPrintDelay : Int := 7000000

/-- Ten seconds in nanoseconds (`10 * time.Second`). -/
def tenSeconds : Int := 10000000000

/-- The interval stored by `WithPrintInterval(d)`: a non-positive or
over-ten-seconds duration is replaced by the 7 ms default. -/
def WithPrintInterval (d : Int) : Int :=
  if d ≤ 0 ∨ tenSeconds < d then DefaultPrintDelay else d

/-- The `printInterval` that `NewLXD02` starts from before applying
options (`printInterval: DefaultPrintDelay`). -/
def newLXD02DefaultInterval : Int := DefaultPrintDelay

/-! ### Rasteriser (`Serialise`, `raster.go`)

`GenericRasteriser.Serialise` is embedded at the `LXD02Rasteriser`
instance: `Width = 384` (so 48 bytes per line), `LinesPerPacket = 2`,
`PrefixFunc i = [0x55, (i >> 8) & 0xFF, i & 0xFF]`, `Terminator = 0`.
The inner `rasteriseLine` closure loops over the 384 pixel columns,
OR-ing `1 << (7 - x % 8)` into byte `x / 8` of a zeroed 48-byte line
whenever `PixelBit` holds. -/

/-- `LXD02Rasteriser.PrefixFunc`: the 3-byte packet prelude
`0x55, (i >> 8) & 0xFF, i & 0xFF`. -/
def PrefixFunc (i : Nat) : List Nat :=
  [0x55, (i >>> 8) &&& 0xFF, i &&& 0xFF]

/-- One iteration of the `rasteriseLine` loop body for column `x`:
set bit `7 - x % 8` of byte `x / 8` when the pixel is on. -/
def lineStep (img : GoImage) (threshold y : Nat) (acc : List Nat)
    (x : Nat) : List Nat :=
  if PixelBit img x y threshold then
    acc.set (x / 8) (acc.getD (x / 8) 0 ||| 1 <<< (7 - x % 8))
  else acc

/-- The `rasteriseLine` closure of `Serialise`: 48 bytes for row `y`,
built by folding the loop body over columns `0..383`. -/
def rasteriseLine (img : GoImage) (threshold y : Nat) : List Nat :=
  (List.range 384).foldl (lineStep img threshold y) (List.replicate 48 0)

/-- One packet of the stream: prelude for index `i`, the two line
payloads for rows `2 i` and `2 i + 1`, and the terminator byte 0. -/
def mkPacket (img : GoImage) (threshold i : Nat) : List Nat :=
  PrefixFunc i ++ rasteriseLine img threshold (2 * i)
    ++ rasteriseLine img threshold (2 * i + 1) ++ [0]

/-- The height padding of `Serialise`: an odd height is bumped by one,
an even height by two ("ensure we have at least 2 lines for the last
packet"). -/
def paddedHeight (h : Nat) : Nat :=
  if h % 2 ≠ 0 then h + 1 else h + 2

/-- `Serialise` from `raster.go` at the LX-D02 parameters: images wider
than 384 pixels are rejected; otherwise one packet is emitted per pair
of rows of the padded height. -/
def Serialise (img : GoImage) (threshold : Nat) :
    Except String (List (List Nat)) :=
  if img.width > 384 then
    .error "image size exceeds 384 pixel limit for this rasteriser"
  else
    .ok ((List.range (paddedHeight img.height / 2)).map
      (mkPacket img threshold))

/-! ### Session FSM (`transition`, printers package, `part_019`)

`transition` runs under the state mutex.  Its observable actions —
cancelling the in-flight streamer context, sending on the job's done
channel, and spawning goroutines — are made explicit as an effect
list, in the order the Go statements execute them.  The
`WaitingRetry`/`Finished` branch synchronously sends the
end-of-transmission command and then either signals done or enqueues
an error depending on the link; that whole tail is the single
`finalizeJob` effect, expanded by `finalizeHandler` below. -/

/-- The `printerState` enumeration. -/
inductive PState where
  | idle
  | initializing
  | ready
  | printing
  | paused
  | waitingRetry
  | completed
  | failed
deriving DecidableEq, Repr

/-- The `printerEvent` enumeration. -/
inductive PEvent where
  | start
  | notificationHold
  | notificationRetransmit
  | notificationFinished
  | initComplete
  | cancel
  | error
deriving DecidableEq, Repr

/-- An observable action performed by `transition` or by the
goroutines it spawns. -/
inductive Effect where
  | cancelStreamer
  | signalDone
  | spawnInit
  | spawnBegin
  | spawnPrint (k : Nat)
  | finalizeJob
deriving DecidableEq, Repr

/-- `extractRetryPacketIndex` from `part_020`: frames shorter than
four bytes yield index 0, otherwise big-endian bytes 2 and 3. -/
def extractRetryPacketIndex (data : List Nat) : Nat :=
  if data.length < 4 then 0
  else (data.getD 2 0) <<< 8 ||| data.getD 3 0

/-- The `switch p.state` body of `transition`: the state after the
switch and the effects the executed case performs. -/
def transitionSwitch (s : PState) (evt : PEvent) (data : List Nat) :
    PState × List Effect :=
  match s with
  | .idle =>
    if evt = .start then (.initializing, [.spawnInit]) else (.idle, [])
  | .initializing =>
    if evt = .initComplete then (.ready, [.spawnBegin])
    else (.initializing, [])
  | .printing =>
    match evt with
    | .notificationHold => (.paused, [.cancelStreamer])
    | .notificationRetransmit =>
      (.printing, [.cancelStreamer, .spawnPrint (extractRetryPacketIndex data)])
    | .error => (.failed, [.cancelStreamer, .signalDone])
    | .notificationFinished => (.waitingRetry, [])
    | _ => (.printing, [])
  | .waitingRetry =>
    match evt with
    | .notificationFinished => (.completed, [.finalizeJob])
    | .notificationHold => (.waitingRetry, [])
    | .notificationRetransmit =>
      (.printing, [.spawnPrint (extractRetryPacketIndex data)])
    | _ => (.waitingRetry, [])
  | .paused =>
    if evt = .notificationRetransmit then
      (.printing, [.spawnPrint (extractRetryPacketIndex data)])
    else (.paused, [])
  | .ready => (.ready, [])
  | .completed => (.completed, [])
  | .failed => (.failed, [])

/-- `transition`: the switch body followed by the trailing global
cancellation/error block, which re-reads the state left by the switch
and, when it is not `Completed` and the event is `Cancel` or `Error`,
cancels the streamer, forces `Failed` and signals done. -/
def transition (s : PState) (evt : PEvent) (data : List Nat) :
    PState × List Effect :=
  let (s1, effs) := transitionSwitch s evt data
  if s1 ≠ .completed ∧ (evt = .cancel ∨ evt = .error) then
    (.failed, effs ++ [.cancelStreamer, .signalDone])
  else (s1, effs)

/-- The begin-job command `5A 04 <len_hi> <len_lo> 00 00` built in the
`Initializing`/`InitComplete` goroutine of `transition`. -/
def beginCmd (buflen : Nat) : List Nat :=
  [0x5A, 0x04, (buflen >>> 8) &&& 0xFF, buflen &&& 0xFF, 0x00, 0x00]

/-- The end-of-transmission command `5A 04 <len_hi> <len_lo> 01 00`
built in the `WaitingRetry`/`Finished` branch of `transition`. -/
def finalCmd (buflen : Nat) : List Nat :=
  [0x5A, 0x04, (buflen >>> 8) &&& 0xFF, buflen &&& 0xFF, 0x01, 0x00]

/-- Outcome of the goroutine spawned on `InitComplete`: with an empty
buffer it enqueues `eventError`; otherwise it awaits the begin command
(`sendAndWait` with the command's own 2-byte prelude, 3 s) and on
acknowledgement calls `printBuffer(0)`, on failure enqueues
`eventError`.  `ackOk` abstracts whether the acknowledgement arrived. -/
inductive BeginOutcome where
  | bufferEmptyError
  | ackFailedError (cmd : List Nat)
  | started (cmd : List Nat) (startIdx : Nat)
deriving DecidableEq, Repr

/-- The body of the goroutine spawned by the
`Initializing`/`InitComplete` case (the `spawnBegin` effect). -/
def beginHandler (buflen : Nat) (ackOk : Bool) : BeginOutcome :=
  if buflen = 0 then .bufferEmptyError
  else if ackOk then .started (beginCmd buflen) 0
  else .ackFailedError (beginCmd buflen)

/-- Outcome of `printBuffer(start)`: with an empty buffer or a start
index past the end it enqueues `eventError` and spawns nothing;
otherwise it starts a streamer that writes packets
`start .. buflen - 1` in order. -/
inductive PrintBufferOutcome where
  | errorEvent
  | streams (indices : List Nat)
deriving DecidableEq, Repr

/-- `printBuffer` from `part_020` (the guard, and the index sequence
the spawned streamer walks when not cancelled). -/
def printBuffer (buflen start : Nat) : PrintBufferOutcome :=
  if buflen = 0 ∨ start ≥ buflen then .errorEvent
  else .streams (List.range' start (buflen - start))

/-! ### Init handshake (`sendInitSequence`, `part_020`) -/

/-- `responseTimeout = 3 * time.Second`, in nanoseconds. -/
def responseTimeout : Nat := 3000000000

/-- A synchronous request as issued through `sendAndWait`: the frame
written, the expected response prelude, and the wait timeout. -/
structure SyncSend where
  cmd : List Nat
  expect : List Nat
  timeoutNs : Nat
deriving DecidableEq, Repr

/-- The four frames of `sendInitSequence`, in source order: identify,
vendor token A, vendor token B, set-energy. -/
def initCmds (energy : Nat) : List (List Nat) :=
  [ [0x5A, 0x01, 0x00, 0x00, 0x00, 0x00, 0x00, 0x00, 0x00, 0x00, 0x00, 0x00],
    [0x5A, 0x0A, 0xB5, 0x7C, 0x4C, 0xB8, 0xAE, 0x70, 0x51, 0xE6, 0xD3, 0x06],
    [0x5A, 0x0B, 0x66, 0x3B, 0x62, 0x8C, 0x1A, 0x69, 0xBF, 0x54, 0x74, 0x4C],
    [0x5A, 0x0C, energy] ]

/-- The loop of `sendInitSequence`: each command is awaited on its own
first two bytes with the 3 s response timeout; the first failed await
enqueues `eventError` and stops; when every await succeeds the
sequence ends with `eventInitComplete`.  `ack n` abstracts whether the
`n`-th await (counting issued requests) succeeded. -/
def runInitFrom (cmds : List (List Nat)) (ack : Nat → Bool) (n : Nat) :
    List SyncSend × PEvent :=
  match cmds with
  | [] => ([], .initComplete)
  | c :: rest =>
    let s : SyncSend := ⟨c, c.take 2, responseTimeout⟩
    if ack n then
      let (ss, e) := runInitFrom rest ack (n + 1)
      (s :: ss, e)
    else ([s], .error)

/-- `sendInitSequence`: run the init loop over the four frames. -/
def sendInitSequence (energy : Nat) (ack : Nat → Bool) :
    List SyncSend × PEvent :=
  runInitFrom (initCmds energy) ack 0

/-! ### Link-layer correlator (`sendAndWait`, `part_020`)

Time and the two mutexes are abstracted away: `busy` says whether the
single pending-response slot is occupied by another request
(`p.responseCh != nil`), `writeOk` whether the BLE write succeeds, and
`arrivals` is the ordered list of inbound frames delivered by the
notification callback before the timeout would elapse.  The result
records the returned value, whether anything was written, and whether
the slot is occupied afterwards. -/

/-- Result of `sendAndWait`. -/
inductive SWResult where
  | ok (frame : List Nat)
  | errInProgress
  | errSendFailed
  | errTimeout
deriving DecidableEq, Repr

/-- The notification callback's match test:
`bytes.HasPrefix(value, p.waitingPrefix)`. -/
def matchesExpect (expect frame : List Nat) : Bool :=
  List.isPrefixOf expect frame

/-- `sendAndWait`: reserve the slot or fail fast, write the frame,
then hand back the first arriving frame the callback matches against
the expected prelude, or a timeout error; the slot is released by the
callback on a match and by `sendAndWait` itself on write failure or
timeout. -/
def sendAndWait (busy writeOk : Bool) (arrivals : List (List Nat))
    (expect : List Nat) : SWResult × Bool × Bool :=
  if busy then (.errInProgress, false, true)
  else if !writeOk then (.errSendFailed, true, false)
  else
    match arrivals.find? (matchesExpect expect) with
    | some f => (.ok f, true, false)
    | none => (.errTimeout, true, false)

/-! ### A small sample image for concrete witnesses -/

/-- A concrete 2-by-2 grey test image. -/
def sampleImg : GoImage where
  width := 2
  height := 2
  px := fun x y => .gray (100 * x + 50 * y)

/-! ## Claim C8: print interval default and cap -/

/-- Claim C8: the effective inter-packet interval defaults to 7 ms
(`NewLXD02` initialises `printInterval` to `DefaultPrintDelay`), and
whatever duration is requested through the print-interval option, the
stored interval never exceeds 10 s — in particular a request above
10 s falls back to the 7 ms default. -/
theorem printInterval_spec :
    newLXD02DefaultInterval = 7000000 ∧
    (∀ d : Int, WithPrintInterval d ≤ tenSeconds) ∧
    (∀ d : Int, tenSeconds < d → WithPrintInterval d = DefaultPrintDelay) := by
  refine ⟨rfl, ?_, ?_⟩
  · intro d
    unfold WithPrintInterval DefaultPrintDelay tenSeconds
    split
    · norm_num
    · rename_i h
      rw [not_or] at h
      omega
  · intro d hd
    unfold WithPrintInterval
    rw [if_pos (Or.inr hd)]

/-- Witness for claim C8: a requested interval of 20 s (over the cap)
falls back to the 7 ms default, which is at most 10 s. -/
theorem printInterval_spec_witness :
    WithPrintInterval 20000000000 = DefaultPrintDelay ∧
    WithPrintInterval 20000000000 ≤ tenSeconds :=
  ⟨printInterval_spec.2.2 20000000000 (by decide),
    printInterval_spec.2.1 20000000000⟩

/-! ## Claim C10: out-of-range streamer start fails the job -/

/-- Claim C10: starting the streamer at an index at or beyond the
packet count, or on an empty buffer, makes `printBuffer` enqueue an
`Error` event instead of streaming, and an `Error` event drives the
FSM from any state except `Completed` into `Failed`. -/
theorem printBuffer_error_spec (buflen start : Nat) (s : PState)
    (hb : buflen = 0 ∨ buflen ≤ start) (hs : s ≠ PState.completed) :
    printBuffer buflen start = PrintBufferOutcome.errorEvent ∧
    (transition s PEvent.error []).1 = PState.failed := by
  constructor
  · unfold printBuffer
    rw [if_pos]
    exact hb.imp id id
  · cases s <;> first | (exact absurd rfl hs) | decide

/-- Witness for claim C10: a retransmit request naming index 5 of a
5-packet buffer is rejected with an `Error` event, and from the
`Printing` state that event ends the job in `Failed`. -/
theorem printBuffer_error_spec_witness :
    printBuffer 5 5 = PrintBufferOutcome.errorEvent ∧
    (transition PState.printing PEvent.error []).1 = PState.failed :=
  printBuffer_error_spec 5 5 PState.printing (Or.inr (Nat.le_refl 5))
    (by decide)

/-! ## Claim C3: done is signalled twice on Error while Printing

The claim says a `Cancel` or `Error` event in any non-terminal state
signals the job's done channel exactly once per job, and that the done
signal never fires more than once.  The code violates this: the
`Printing`/`Error` case of `transition` sets the state to `Failed` and
sends on `doneCh`, and then the trailing global cancel/error block —
whose guard re-reads the state, now `Failed`, which is not `Completed`
— sends on `doneCh` a second time within the same transition.  Since
`doneCh` is unbuffered and its only receiver has already returned, the
second send blocks forever while `stateMu` is held, wedging the FSM.
The spec's "exactly once" is clearly the intent and the duplicated
send (the inner case repeats what the global block already does) is a
slip in the code. -/

/-- Claim C3 (code bug): an `Error` event in the non-terminal
`Printing` state makes `transition` perform the done-channel send
twice — once in the `Printing`/`Error` case and once in the global
cancel/error block. -/
theorem transition_printing_error_double_done :
    (transition PState.printing PEvent.error []).2.count Effect.signalDone = 2 ∧
    (transition PState.printing PEvent.error []).1 = PState.failed ∧
    (transition PState.printing PEvent.cancel []).2.count Effect.signalDone = 1 := by
  decide

/-! ## Claim C7: malformed retransmit frames are not dropped

The claim says a `5A 05` frame shorter than four bytes is logged and
dropped, failing nothing and leaving the streamer position unchanged.
In the code `extractRetryPacketIndex` returns 0 for such a frame, and
the `Printing`/`Retransmit` case then cancels the active streamer and
restarts it from packet 0 — the position is reset, not preserved. -/

/-- Counterexample to claim C7: the two-byte retransmit frame
`5A 05` is not dropped — the transition cancels the streamer and
restarts it at packet 0, changing the streamer's position. -/
theorem malformed_retransmit_counterexample :
    extractRetryPacketIndex [0x5A, 0x05] = 0 ∧
    transition PState.printing PEvent.notificationRetransmit [0x5A, 0x05]
      = (PState.printing, [Effect.cancelStreamer, Effect.spawnPrint 0]) ∧
    (transition PState.printing PEvent.notificationRetransmit [0x5A, 0x05]).2 ≠ [] := by
  decide

/-- Claim C7 as amended: a malformed retransmit notification (a
`5A 05` frame shorter than four bytes) decodes to packet index 0, so
the FSM cancels the active streamer and restarts it from packet 0; the
job is not failed and done is not signalled. -/
theorem malformed_retransmit_spec (data : List Nat) (hd : data.length < 4) :
    extractRetryPacketIndex data = 0 ∧
    transition PState.printing PEvent.notificationRetransmit data
      = (PState.printing, [Effect.cancelStreamer, Effect.spawnPrint 0]) ∧
    Effect.signalDone ∉
      (transition PState.printing PEvent.notificationRetransmit data).2 := by
  have hidx : extractRetryPacketIndex data = 0 := by
    unfold extractRetryPacketIndex
    rw [if_pos hd]
  have htr : transition PState.printing PEvent.notificationRetransmit data
      = (PState.printing, [Effect.cancelStreamer, Effect.spawnPrint 0]) := by
    unfold transition transitionSwitch
    simp [hidx]
  refine ⟨hidx, htr, ?_⟩
  rw [htr]
  decide

/-- Witness for claim C7 as amended, at the concrete three-byte frame
`5A 05 00` (still too short to carry an index). -/
theorem malformed_retransmit_spec_witness :
    extractRetryPacketIndex [0x5A, 0x05, 0x00] = 0 ∧
    transition PState.printing PEvent.notificationRetransmit [0x5A, 0x05, 0x00]
      = (PState.printing, [Effect.cancelStreamer, Effect.spawnPrint 0]) ∧
    Effect.signalDone ∉
      (transition PState.printing PEvent.notificationRetransmit
        [0x5A, 0x05, 0x00]).2 :=
  malformed_retransmit_spec [0x5A, 0x05, 0x00] (by decide)

/-! ## Claim C4: init handshake and begin command -/

/-- Claim C4: on `Start` from `Idle` the FSM schedules the init
handshake, which issues exactly the four frames identify, vendor token
A, vendor token B and set-energy, in that order, each awaited on its
own two-byte prelude with the 3 s response timeout; `InitComplete` is
produced only when all four awaits succeed, and on `InitComplete` the
FSM (via `Ready`) runs the begin goroutine, which sends
`5A 04 <len_hi> <len_lo> 00 00` for the packet count and then starts
the streamer at index 0. -/
theorem init_handshake_spec (energy buflen : Nat) (hb : 0 < buflen) :
    transition PState.idle PEvent.start [] = (PState.initializing, [Effect.spawnInit]) ∧
    (sendInitSequence energy (fun _ => true)).1 =
      [ ⟨[0x5A, 0x01, 0x00, 0x00, 0x00, 0x00, 0x00, 0x00, 0x00, 0x00, 0x00, 0x00],
          [0x5A, 0x01], responseTimeout⟩,
        ⟨[0x5A, 0x0A, 0xB5, 0x7C, 0x4C, 0xB8, 0xAE, 0x70, 0x51, 0xE6, 0xD3, 0x06],
          [0x5A, 0x0A], responseTimeout⟩,
        ⟨[0x5A, 0x0B, 0x66, 0x3B, 0x62, 0x8C, 0x1A, 0x69, 0xBF, 0x54, 0x74, 0x4C],
          [0x5A, 0x0B], responseTimeout⟩,
        ⟨[0x5A, 0x0C, energy], [0x5A, 0x0C], responseTimeout⟩ ] ∧
    (∀ s ∈ (sendInitSequence energy (fun _ => true)).1,
      s.expect = s.cmd.take 2 ∧ s.timeoutNs = 3000000000) ∧
    (sendInitSequence energy (fun _ => true)).2 = PEvent.initComplete ∧
    (∀ ack : Nat → Bool, (sendInitSequence energy ack).2 = PEvent.initComplete →
      (sendInitSequence energy ack).1.length = 4 ∧ ∀ n < 4, ack n = true) ∧
    transition PState.initializing PEvent.initComplete []
      = (PState.ready, [Effect.spawnBegin]) ∧
    beginHandler buflen true =
      BeginOutcome.started
        [0x5A, 0x04, (buflen >>> 8) &&& 0xFF, buflen &&& 0xFF, 0x00, 0x00] 0 := by
  refine ⟨by decide, rfl, ?_, rfl, ?_, by decide, ?_⟩
  · intro s hs
    simp only [sendInitSequence, initCmds, runInitFrom, if_pos] at hs
    simp only [List.mem_cons, List.not_mem_nil, or_false] at hs
    rcases hs with h | h | h | h <;> subst h <;> exact ⟨rfl, rfl⟩
  · intro ack hok
    simp only [sendInitSequence, initCmds, runInitFrom] at hok ⊢
    cases h0 : ack 0 <;> simp only [h0, if_true, if_false] at hok ⊢
    · simp at hok
    cases h1 : ack 1 <;> simp only [h1, if_true, if_false] at hok ⊢
    · simp at hok
    cases h2 : ack 2 <;> simp only [h2, if_true, if_false] at hok ⊢
    · simp at hok
    cases h3 : ack 3 <;> simp only [h3, if_true, if_false] at hok ⊢
    · simp at hok
    refine ⟨rfl, ?_⟩
    intro n hn
    interval_cases n <;> assumption
  · unfold beginHandler
    rw [if_neg (by omega), if_pos rfl, beginCmd]

/-- Witness for claim C4 at energy level 2 and a 3-packet buffer. -/
theorem init_handshake_spec_witness :
    (sendInitSequence 2 (fun _ => true)).2 = PEvent.initComplete ∧
    beginHandler 3 true =
      BeginOutcome.started [0x5A, 0x04, 0x00, 0x03, 0x00, 0x00] 0 := by
  have h := init_handshake_spec 2 3 (by decide)
  exact ⟨h.2.2.2.1, h.2.2.2.2.2.2⟩

/-! ## Claim C5: the synchronous request/response correlator -/

/-- A successful `find?` splits the list at the first element
satisfying the test. -/
theorem find?_eq_some_split {α : Type} {p : α → Bool} :
    ∀ {l : List α} {a : α}, l.find? p = some a →
      p a = true ∧ ∃ l1 l2, l = l1 ++ a :: l2 ∧ ∀ x ∈ l1, p x = false := by
  intro l
  induction l with
  | nil => intro a h; simp [List.find?] at h
  | cons b t ih =>
    intro a h
    rw [List.find?] at h
    cases hb : p b with
    | true =>
      rw [hb] at h
      cases h
      exact ⟨hb, [], t, rfl, by intro x hx; simp at hx⟩
    | false =>
      rw [hb] at h
      obtain ⟨hpa, l1, l2, hsplit, hnone⟩ := ih h
      refine ⟨hpa, b :: l1, l2, by rw [hsplit]; rfl, ?_⟩
      intro x hx
      rcases List.mem_cons.1 hx with h1 | h1
      · rwa [h1]
      · exact hnone x h1

/-- With a two-byte expected prelude, the callback's
`bytes.HasPrefix` test is exactly "the first two bytes equal the
expected prelude". -/
theorem matchesExpect_take2 (expect f : List Nat) (hlen : expect.length = 2) :
    matchesExpect expect f = true ↔ f.take 2 = expect := by
  unfold matchesExpect
  rw [List.isPrefixOf_iff_prefix, List.prefix_iff_eq_take, hlen]
  exact ⟨fun h => h.symm, fun h => h.symm⟩

/-- Claim C5: `sendAndWait` fails immediately with the in-progress
error, writing nothing and leaving the slot to its owner, whenever the
single pending-response slot is already reserved; otherwise it writes
and returns the first inbound frame whose first two bytes equal the
expected prelude — frames before it do not match — or a timeout error
when no arriving frame matches, and in either case the slot is clear
afterwards. -/
theorem sendAndWait_spec (writeOk : Bool) (arrivals : List (List Nat))
    (expect : List Nat) (hlen : expect.length = 2) :
    (sendAndWait true writeOk arrivals expect
      = (SWResult.errInProgress, false, true)) ∧
    ((∃ f ∈ arrivals, f.take 2 = expect) →
      ∃ before rest f, arrivals = before ++ f :: rest ∧ f.take 2 = expect ∧
        (∀ g ∈ before, g.take 2 ≠ expect) ∧
        sendAndWait false true arrivals expect = (SWResult.ok f, true, false)) ∧
    ((∀ f ∈ arrivals, f.take 2 ≠ expect) →
      sendAndWait false true arrivals expect
        = (SWResult.errTimeout, true, false)) := by
  refine ⟨rfl, ?_, ?_⟩
  · intro hex
    cases hfind : arrivals.find? (matchesExpect expect) with
    | none =>
      exfalso
      obtain ⟨f, hf, htake⟩ := hex
      have hnone := List.find?_eq_none.1 hfind f hf
      exact hnone ((matchesExpect_take2 expect f hlen).2 htake)
    | some f =>
      obtain ⟨hpf, l1, l2, hsplit, hbefore⟩ := find?_eq_some_split hfind
      refine ⟨l1, l2, f, hsplit, (matchesExpect_take2 expect f hlen).1 hpf, ?_, ?_⟩
      · intro g hg htake
        have := hbefore g hg
        rw [(matchesExpect_take2 expect g hlen).2 htake] at this
        simp at this
      · unfold sendAndWait
        rw [hfind]
        rfl
  · intro hall
    have hfind : arrivals.find? (matchesExpect expect) = none := by
      rw [List.find?_eq_none]
      intro f hf hmatch
      exact hall f hf ((matchesExpect_take2 expect f hlen).1 hmatch)
    unfold sendAndWait
    rw [hfind]
    rfl

/-- Witness for claim C5: with expected prelude `5A 04`, a busy slot
fails fast, and with a free slot the second arriving frame
`5A 04 00 03` is returned (the first frame `5A 02 63 00 00 00` does
not match) and the slot ends clear. -/
theorem sendAndWait_spec_witness :
    sendAndWait false true
      [[0x5A, 0x02, 0x63, 0x00, 0x00, 0x00], [0x5A, 0x04, 0x00, 0x03]]
      [0x5A, 0x04] = (SWResult.ok [0x5A, 0x04, 0x00, 0x03], true, false) := by
  have h := sendAndWait_spec true
    [[0x5A, 0x02, 0x63, 0x00, 0x00, 0x00], [0x5A, 0x04, 0x00, 0x03]]
    [0x5A, 0x04] (by decide)
  obtain ⟨-, hsome, -⟩ := h
  obtain ⟨before, rest, f, hsplit, htake, -, hrun⟩ :=
    hsome ⟨[0x5A, 0x04, 0x00, 0x03], by simp, by decide⟩
  have hf : f = [0x5A, 0x04, 0x00, 0x03] := by
    have hmem : f ∈ ([[0x5A, 0x02, 0x63, 0x00, 0x00, 0x00],
        [0x5A, 0x04, 0x00, 0x03]] : List (List Nat)) := by
      rw [hsplit]
      exact List.mem_append_right _ (List.mem_cons_self f rest)
    rcases List.mem_cons.1 hmem with h1 | h1
    · exfalso
      rw [h1] at htake
      exact absurd htake (by decide)
    · simpa using h1
  rw [hf] at hrun
  exact hrun

/-! ## Claim C9: threshold conversion is idempotent -/

/-- Closed form of `PixelBit`: the bounds guards and the grey
comparison against the effective threshold. -/
theorem PixelBit_eq (img : GoImage) (x y t : Nat) :
    PixelBit img x y t =
      (decide (y < img.height) && decide (x < img.width) &&
       decide (ColorToGray (img.px x y) <
         if t = 0 then DefaultThreshold else t)) := by
  unfold PixelBit
  by_cases hy : y ≥ img.height
  · rw [if_pos hy]
    simp [show ¬ y < img.height by omega]
  · rw [if_neg hy]
    by_cases hx : x ≥ img.width
    · rw [if_pos hx]
      simp [show ¬ x < img.width by omega]
    · rw [if_neg hx]
      simp [show y < img.height by omega, show x < img.width by omega]

/-- A pixel that reads as on lies inside the image bounds. -/
theorem PixelBit_bounds {img : GoImage} {x y t : Nat}
    (h : PixelBit img x y t = true) : y < img.height ∧ x < img.width := by
  rw [PixelBit_eq] at h
  simp only [Bool.and_eq_true, decide_eq_true_eq] at h
  exact ⟨h.1.1, h.1.2⟩

/-- The effective threshold (0 replaced by the 128 default) lies in
`1..255` whenever the requested `uint8` threshold does not exceed
255. -/
theorem effectiveThreshold_bounds (t : Nat) (ht : t ≤ 255) :
    1 ≤ (if t = 0 then DefaultThreshold else t) ∧
      (if t = 0 then DefaultThreshold else t) ≤ 255 := by
  unfold DefaultThreshold
  split <;> omega

/-- Reading a pixel of a threshold-converted image through `PixelBit`
with the same threshold gives the same bit as reading the original:
black converts to grey 0 (below any effective threshold) and white to
grey 255 (never below a `uint8` threshold). -/
theorem PixelBit_DitherThreshold (t : Nat) (ht : t ≤ 255) (img : GoImage)
    (x y : Nat) :
    PixelBit (DitherThreshold t img) x y t = PixelBit img x y t := by
  obtain ⟨h1, h255⟩ := effectiveThreshold_bounds t ht
  rw [PixelBit_eq (DitherThreshold t img) x y t]
  have hw : (DitherThreshold t img).width = img.width := rfl
  have hh : (DitherThreshold t img).height = img.height := rfl
  have hpx : (DitherThreshold t img).px x y
      = (if PixelBit img x y t then GoColor.gray16 0
         else GoColor.gray16 0xffff) := rfl
  rw [hw, hh, hpx]
  cases hb : PixelBit img x y t with
  | true =>
    have hb2 := hb
    rw [PixelBit_eq] at hb2
    simp only [Bool.and_eq_true, decide_eq_true_eq] at hb2
    have hctg : ColorToGray (GoColor.gray16 0) = 0 := rfl
    simp only [if_true, hctg]
    simp only [Bool.and_eq_true, decide_eq_true_eq]
    exact ⟨⟨hb2.1.1, hb2.1.2⟩, by omega⟩
  | false =>
    have hctg : ColorToGray (GoColor.gray16 0xffff) = 255 := by decide
    have h2 : ¬ (255 < if t = 0 then DefaultThreshold else t) := by omega
    simp [hctg, h2]

/-- Claim C9: threshold conversion is idempotent — applying
`DitherThresholdFn(t)` to its own output leaves the dimensions and
every pixel unchanged. -/
theorem ditherThreshold_idempotent_spec (t : Nat) (img : GoImage)
    (ht : t ≤ 255) :
    (DitherThreshold t (DitherThreshold t img)).width
      = (DitherThreshold t img).width ∧
    (DitherThreshold t (DitherThreshold t img)).height
      = (DitherThreshold t img).height ∧
    ∀ x y, (DitherThreshold t (DitherThreshold t img)).px x y
      = (DitherThreshold t img).px x y := by
  refine ⟨rfl, rfl, ?_⟩
  intro x y
  show (if PixelBit (DitherThreshold t img) x y t then GoColor.gray16 0
      else GoColor.gray16 0xffff)
    = (if PixelBit img x y t then GoColor.gray16 0 else GoColor.gray16 0xffff)
  rw [PixelBit_DitherThreshold t ht img x y]

/-- Witness for claim C9 at threshold 128 on the sample image. -/
theorem ditherThreshold_idempotent_spec_witness :
    (DitherThreshold 128 (DitherThreshold 128 sampleImg)).px 0 0
      = (DitherThreshold 128 sampleImg).px 0 0 :=
  (ditherThreshold_idempotent_spec 128 sampleImg (by decide)).2.2 0 0

/-! ## Claim C6: resize-to-fit geometry

The downscaling branch computes
`targetHeight := Dy * targetWidth / Dx` with Go's truncating integer
division, not rounding to nearest: a 500 by 100 input gives height 76
where rounding 76.8 would give 77. -/

/-- Modelled from the spec (refinement comparator only): the spec's
"output height = round(input_height · W / input_width)", rounding to
the nearest integer. -/
def specRoundedHeight (h target w : Nat) : Nat :=
  (h * target + w / 2) / w

/-- A concrete all-white 500 by 100 image, wider than the print
width. -/
def wideImg : GoImage where
  width := 500
  height := 100
  px := fun _ _ => whiteColor

/-- Counterexample to claim C6: for a 500 by 100 input the code
produces output height 76 (truncating division), while the claimed
rounding gives 77. -/
theorem resizeToFit_round_counterexample :
    (ResizeToFit (fun _ _ => whiteColor) wideImg 384).height = 76 ∧
    specRoundedHeight 100 384 500 = 77 ∧
    (ResizeToFit (fun _ _ => whiteColor) wideImg 384).height ≠
      specRoundedHeight 100 384 500 := by
  refine ⟨?_, by decide, ?_⟩ <;>
    simp [ResizeToFit, wideImg, specRoundedHeight]

/-- Claim C6 as amended: an input wider than 384 is scaled to width
384 with output height `input_height * 384 / input_width` rounded
down (truncating integer division); an input of width at most 384 is
not upscaled — the output keeps the input height, the original pixels
appear at (0,0), and the rest of the 384-wide canvas is white. -/
theorem resizeToFit_dims_spec (scaled : Nat → Nat → GoColor)
    (img : GoImage) :
    (ResizeToFit scaled img 384).width = 384 ∧
    (ResizeToFit scaled img 384).height =
      (if img.width ≤ 384 then img.height
       else img.height * 384 / img.width) ∧
    (img.width ≤ 384 → ∀ x y, x < img.width → y < img.height →
      (ResizeToFit scaled img 384).px x y = img.px x y) ∧
    (img.width ≤ 384 → ∀ x y, img.width ≤ x ∨ img.height ≤ y →
      (ResizeToFit scaled img 384).px x y = whiteColor) := by
  by_cases h : img.width ≤ 384
  · refine ⟨by simp [ResizeToFit, h], by simp [ResizeToFit, h], ?_, ?_⟩
    · intro _ x y hx hy
      simp only [ResizeToFit, if_pos h]
      rw [if_pos ⟨hx, hy⟩]
    · intro _ x y hxy
      simp only [ResizeToFit, if_pos h]
      rw [if_neg (by omega)]
  · refine ⟨by simp [ResizeToFit, h], by simp [ResizeToFit, h], ?_, ?_⟩ <;>
      exact fun hc => absurd hc h

/-- Witness for claim C6 as amended on the 2 by 2 sample image: the
height is kept, an interior pixel is copied and a pixel right of the
input is white. -/
theorem resizeToFit_dims_spec_witness :
    (ResizeToFit (fun _ _ => whiteColor) sampleImg 384).height = 2 ∧
    (ResizeToFit (fun _ _ => whiteColor) sampleImg 384).px 1 1
      = sampleImg.px 1 1 ∧
    (ResizeToFit (fun _ _ => whiteColor) sampleImg 384).px 10 0
      = whiteColor := by
  have h := resizeToFit_dims_spec (fun _ _ => whiteColor) sampleImg
  refine ⟨?_, h.2.2.1 (by decide) 1 1 (by decide) (by decide),
    h.2.2.2 (by decide) 10 0 (Or.inl (by decide))⟩
  rw [h.2.1]
  decide

/-! ## Claims C1 and C2: the packet stream

Supporting lemmas about the `rasteriseLine` fold: it preserves the
48-byte line length, leaves bytes of other columns' groups untouched,
and byte `x / 8`, bit `7 - x % 8` ends up holding exactly
`PixelBit` of column `x`. -/

/-- `getD` after setting the same (in-range) index reads the new
value. -/
theorem getD_set_self (l : List Nat) (i v : Nat) (h : i < l.length) :
    (l.set i v).getD i 0 = v := by
  simp [List.getD, List.getElem?_set, h]

/-- `getD` after setting a different index is unchanged. -/
theorem getD_set_ne (l : List Nat) (i j v : Nat) (h : i ≠ j) :
    (l.set i v).getD j 0 = l.getD j 0 := by
  simp [List.getD, List.getElem?_set, h]

/-- Reading any index of an all-zero line gives zero. -/
theorem getD_replicate_zero : ∀ (n j : Nat), (List.replicate n 0).getD j 0 = 0
  | 0, _ => rfl
  | _ + 1, 0 => rfl
  | n + 1, j + 1 => getD_replicate_zero n j

/-- The loop body is the identity on a column whose pixel is off. -/
theorem lineStep_false (img : GoImage) (t y : Nat) (acc : List Nat) (n : Nat)
    (hpb : PixelBit img n y t = false) : lineStep img t y acc n = acc := by
  unfold lineStep
  rw [if_neg (by rw [hpb]; simp)]

/-- The loop body on a column whose pixel is on ORs the column's bit
into the column's byte. -/
theorem lineStep_true (img : GoImage) (t y : Nat) (acc : List Nat) (n : Nat)
    (hpb : PixelBit img n y t = true) :
    lineStep img t y acc n
      = acc.set (n / 8) (acc.getD (n / 8) 0 ||| 1 <<< (7 - n % 8)) := by
  unfold lineStep
  rw [if_pos hpb]

/-- Reading a mapped range at an in-range index. -/
theorem getD_map_range {α : Type} (f : Nat → α) (n i : Nat) (d : α)
    (h : i < n) : ((List.range n).map f).getD i d = f i := by
  simp [List.getD, List.getElem?_map, List.getElem?_range, h]

/-- Folding the line-building step never changes the byte count. -/
theorem foldl_lineStep_length (img : GoImage) (t y : Nat) :
    ∀ (l acc : List Nat), (l.foldl (lineStep img t y) acc).length = acc.length := by
  intro l
  induction l with
  | nil => intro acc; rfl
  | cons a rest ih =>
    intro acc
    rw [List.foldl_cons, ih]
    unfold lineStep
    split
    · rw [List.length_set]
    · rfl

/-- A `rasteriseLine` result is 48 bytes. -/
theorem rasteriseLine_length (img : GoImage) (t y : Nat) :
    (rasteriseLine img t y).length = 48 := by
  unfold rasteriseLine
  rw [foldl_lineStep_length]
  exact List.length_replicate 48 0

/-- When every pixel of row `y` reads as off, the fold is the
identity. -/
theorem foldl_lineStep_noop (img : GoImage) (t y : Nat)
    (hoff : ∀ x, PixelBit img x y t = false) :
    ∀ (l acc : List Nat), l.foldl (lineStep img t y) acc = acc := by
  intro l
  induction l with
  | nil => intro acc; rfl
  | cons a rest ih =>
    intro acc
    rw [List.foldl_cons]
    have : lineStep img t y acc a = acc := by
      unfold lineStep
      rw [if_neg (by rw [hoff a]; simp)]
    rw [this, ih]

/-- A row at or beyond the image height rasterises to 48 zero
bytes. -/
theorem rasteriseLine_pad (img : GoImage) (t y : Nat)
    (hy : img.height ≤ y) :
    rasteriseLine img t y = List.replicate 48 0 := by
  unfold rasteriseLine
  apply foldl_lineStep_noop
  intro x
  rw [PixelBit_eq]
  simp [show ¬ y < img.height by omega]

/-- The central invariant of the packing loop: after processing
columns `0 .. n - 1`, bit `b` of byte `j` is set exactly when some
processed column `x` targets that byte (`x / 8 = j`) and that bit
(`7 - x % 8 = b`) and its pixel is on. -/
theorem foldl_lineStep_testBit (img : GoImage) (t y : Nat) :
    ∀ (n j b : Nat), j < 48 →
      Nat.testBit
        (((List.range n).foldl (lineStep img t y)
          (List.replicate 48 0)).getD j 0) b
      = (List.range n).any (fun x =>
          decide (x / 8 = j) && decide (7 - x % 8 = b) && PixelBit img x y t) := by
  intro n
  induction n with
  | zero =>
    intro j b hj
    show Nat.testBit ((List.replicate 48 0).getD j 0) b = false
    rw [getD_replicate_zero]
    exact Nat.zero_testBit b
  | succ n ih =>
    intro j b hj
    rw [List.range_succ, List.foldl_append, List.any_append]
    simp only [List.foldl_cons, List.foldl_nil, List.any_cons, List.any_nil,
      Bool.or_false]
    have hlen : ((List.range n).foldl (lineStep img t y)
        (List.replicate 48 0)).length = 48 := by
      rw [foldl_lineStep_length]
      exact List.length_replicate 48 0
    cases hpb : PixelBit img n y t with
    | false =>
      rw [lineStep_false img t y _ n hpb, ih j b hj]
      simp [hpb]
    | true =>
      rw [lineStep_true img t y _ n hpb]
      by_cases hj8 : n / 8 = j
      · rw [hj8, getD_set_self _ _ _ (by omega), Nat.one_shiftLeft,
          Nat.testBit_or, Nat.testBit_two_pow, ih j b hj]
        simp [hpb, hj8]
      · rw [getD_set_ne _ _ _ _ hj8, ih j b hj]
        simp [hpb, hj8]

/-- Bit `7 - x % 8` of byte `x / 8` of a rasterised line is the pixel
bit of column `x`. -/
theorem rasteriseLine_testBit (img : GoImage) (t y x : Nat)
    (hx : x < 384) :
    Nat.testBit ((rasteriseLine img t y).getD (x / 8) 0) (7 - x % 8)
      = PixelBit img x y t := by
  have hj : x / 8 < 48 := by omega
  unfold rasteriseLine
  rw [foldl_lineStep_testBit img t y 384 (x / 8) (7 - x % 8) hj]
  cases hpb : PixelBit img x y t with
  | true =>
    rw [List.any_eq_true]
    exact ⟨x, List.mem_range.2 hx, by simp [hpb]⟩
  | false =>
    rw [List.any_eq_false]
    intro x2 hx2
    by_cases hex : x2 = x
    · subst hex
      simp [hpb]
    · have hx2lt := List.mem_range.1 hx2
      intro hcontra
      simp only [Bool.and_eq_true, decide_eq_true_eq] at hcontra
      exact hex (by omega)

/-- The padded height halves to `(h + 2 - h % 2) / 2`. -/
theorem paddedHeight_div (h : Nat) :
    paddedHeight h / 2 = (h + 2 - h % 2) / 2 := by
  unfold paddedHeight
  by_cases hp : h % 2 = 0
  · rw [if_neg (by omega)]
    omega
  · rw [if_pos (by omega)]
    omega

/-- Claim C1: for an image of width at most 384 and height `H`,
`Serialise` succeeds with exactly `(H + 2 - H % 2) / 2` packets — an
odd height is padded by one line, an even height by two — and for an
even height the extra trailing packet (index `H / 2`) carries all-zero
line data. -/
theorem Serialise_length_spec (img : GoImage) (t : Nat)
    (hw : img.width ≤ 384) :
    ∃ ps, Serialise img t = Except.ok ps ∧
      ps.length = (img.height + 2 - img.height % 2) / 2 ∧
      (img.height % 2 = 0 →
        ps.getD (img.height / 2) [] =
          PrefixFunc (img.height / 2) ++ List.replicate 48 0
            ++ List.replicate 48 0 ++ [0]) := by
  refine ⟨(List.range (paddedHeight img.height / 2)).map
    (mkPacket img t), ?_, ?_, ?_⟩
  · unfold Serialise
    rw [if_neg (by omega)]
  · rw [List.length_map, List.length_range, paddedHeight_div]
  · intro heven
    have hlt : img.height / 2 < paddedHeight img.height / 2 := by
      rw [paddedHeight_div]
      omega
    rw [getD_map_range _ _ _ _ hlt]
    unfold mkPacket
    rw [rasteriseLine_pad img t _ (by omega),
      rasteriseLine_pad img t _ (by omega)]

/-- Witness for claim C1: the 2 by 2 sample image (even height)
serialises to two packets, and the extra packet at index 1 is the
prelude `55 00 01`, 96 zero bytes and the terminator. -/
theorem Serialise_length_spec_witness :
    ∃ ps, Serialise sampleImg 128 = Except.ok ps ∧ ps.length = 2 ∧
      ps.getD 1 [] = PrefixFunc 1 ++ List.replicate 48 0
        ++ List.replicate 48 0 ++ [0] := by
  obtain ⟨ps, hok, hlen, hpad⟩ :=
    Serialise_length_spec sampleImg 128 (by decide)
  exact ⟨ps, hok, by rw [hlen]; decide, hpad (by decide)⟩

/-- Claim C2: every packet of the stream is 100 bytes — the prelude
`0x55, (i >> 8) & 0xFF, i & 0xFF`, 48 bytes for row `2 i`, 48 bytes
for row `2 i + 1` and the terminator 0 — and within a row, bit
`7 - x % 8` of byte `x / 8` is set exactly when column `x` is inside
the image, the row is inside the image and the pixel's grey value is
below the threshold; rows at or beyond the image height are all-zero
bytes. -/
theorem Serialise_packet_spec (img : GoImage) (t i : Nat) (ht : t ≠ 0)
    (hw : img.width ≤ 384)
    (hi : i < (img.height + 2 - img.height % 2) / 2) :
    ∃ ps row0 row1,
      Serialise img t = Except.ok ps ∧
      ps.getD i [] = [0x55, (i >>> 8) &&& 0xFF, i &&& 0xFF]
        ++ row0 ++ row1 ++ [0] ∧
      (ps.getD i []).length = 100 ∧
      row0.length = 48 ∧ row1.length = 48 ∧
      (∀ x, x < 384 →
        Nat.testBit (row0.getD (x / 8) 0) (7 - x % 8)
          = decide (x < img.width ∧ 2 * i < img.height ∧
              ColorToGray (img.px x (2 * i)) < t) ∧
        Nat.testBit (row1.getD (x / 8) 0) (7 - x % 8)
          = decide (x < img.width ∧ 2 * i + 1 < img.height ∧
              ColorToGray (img.px x (2 * i + 1)) < t)) ∧
      (img.height ≤ 2 * i → row0 = List.replicate 48 0) ∧
      (img.height ≤ 2 * i + 1 → row1 = List.replicate 48 0) := by
  have hpkt : ((List.range (paddedHeight img.height / 2)).map
      (mkPacket img t)).getD i [] = mkPacket img t i := by
    rw [getD_map_range]
    rw [paddedHeight_div]
    exact hi
  have hbit : ∀ y x, x < 384 →
      Nat.testBit ((rasteriseLine img t y).getD (x / 8) 0) (7 - x % 8)
        = decide (x < img.width ∧ y < img.height ∧
            ColorToGray (img.px x y) < t) := by
    intro y x hx
    rw [rasteriseLine_testBit img t y x hx, PixelBit_eq, if_neg ht]
    simp only [Bool.decide_and]
    cases hxa : decide (x < img.width) <;>
      cases hya : decide (y < img.height) <;>
        cases hga : decide (ColorToGray (img.px x y) < t) <;> rfl
  refine ⟨(List.range (paddedHeight img.height / 2)).map (mkPacket img t),
    rasteriseLine img t (2 * i), rasteriseLine img t (2 * i + 1),
    ?_, ?_, ?_, rasteriseLine_length img t (2 * i),
    rasteriseLine_length img t (2 * i + 1), ?_, ?_, ?_⟩
  · unfold Serialise
    rw [if_neg (by omega)]
  · rw [hpkt]
    rfl
  · rw [hpkt]
    unfold mkPacket
    simp [List.length_append, rasteriseLine_length, PrefixFunc]
  · intro x hx
    exact ⟨hbit (2 * i) x hx, hbit (2 * i + 1) x hx⟩
  · intro hrow
    exact rasteriseLine_pad img t (2 * i) hrow
  · intro hrow
    exact rasteriseLine_pad img t (2 * i + 1) hrow

/-- Witness for claim C2 on the sample image at threshold 128, packet
index 0: the packet is 100 bytes, and bit 7 of byte 0 of the first row
equals the on-state of the sample pixel (0,0), whose grey 0 is below
128. -/
theorem Serialise_packet_spec_witness :
    ∃ ps row0 row1,
      Serialise sampleImg 128 = Except.ok ps ∧
      ps.getD 0 [] = [0x55, 0x00, 0x00] ++ row0 ++ row1 ++ [0] ∧
      (ps.getD 0 []).length = 100 ∧
      Nat.testBit (row0.getD 0 0) 7 = true := by
  obtain ⟨ps, row0, row1, hok, hpkt, hlen, -, -, hbits, -, -⟩ :=
    Serialise_packet_spec sampleImg 128 0 (by decide) (by decide) (by decide)
  refine ⟨ps, row0, row1, hok, hpkt, hlen, ?_⟩
  have h0 := (hbits 0 (by decide)).1
  rw [show ((0 : Nat) / 8) = 0 from rfl, show (7 - (0 : Nat) % 8) = 7 from rfl]
    at h0
  rw [h0]
  decide

end Thermoprint
